import Mathlib

/-!
Verification development for the DPPO pass-selection trainer (src/DPPO.py).

The Python source is shallowly embedded here: machine floats are modelled as
exact rationals, Python dictionaries as association lists or functions into
`Option`, and fallible computations (Python exceptions) as `Except` values.
Every definition is translated from the numbered lines of src/DPPO.py cited
in its doc comment.
-/

namespace DPPO

/-! ### NameResolver (Worker.RegExpSearch, src/DPPO.py lines 204-228) -/

/-- Substring containment test. `re.search(re.escape(TargetName), candidate)`
(line 216) succeeds exactly when `TargetName` occurs verbatim inside
`candidate` (escaping makes the pattern a literal), i.e. when the character
list of `TargetName` is an infix of that of `candidate`. -/
def containsName (TargetName candidate : String) : Bool :=
  decide (List.IsInfix TargetName.data candidate.data)

/-- Worker.RegExpSearch, lines 204-228. First pass (lines 215-220): scan the
candidates in order and return the first whose text contains `TargetName`.
Second pass (lines 221-227): filter the candidates with the compiled pattern
`.*TargetName.*` (escaped) and return the head of the filtered list. Since
the two `.*` wildcards may match the empty string, the second pattern
matches a candidate exactly when the escaped `TargetName` occurs in it, so
both passes use the same containment predicate `containsName`. -/
def RegExpSearch (TargetName : String) (L : List String) : Option String :=
  match L.find? (fun candidate => containsName TargetName candidate) with
  | some c => some c
  | none =>
      match L.filter (fun candidate => containsName TargetName candidate) with
      | [] => none
      | c :: _ => some c

/-! ### InfluentialStateSelector fallback (Worker.getMostInfluentialState,
src/DPPO.py lines 168-199) -/

/-- The candidate-resolution loop of Worker.getMostInfluentialState,
lines 190-195: walk `NameList` (the profiled names, in the order produced on
lines 186-189) and return the first `realKey` that `RegExpSearch` resolves
against `FunctionList`; `none` means the loop finished with `done = False`,
after which line 198 falls back to `random.choice(FunctionList)`.
Note that line 182 calls `sorted(UsageList, ...)` without using its result,
so `NameList` stays in `Stats.items()` (insertion) order. -/
def fallbackSearch (NameList : List String) (FunctionList : List String) :
    Option String :=
  match NameList with
  | [] => none
  | cand :: rest =>
      match RegExpSearch cand FunctionList with
      | some realKey => some realKey
      | none => fallbackSearch rest FunctionList

/-! ### Theorems about NameResolver -/

theorem RegExpSearch_eq_find (t : String) (l : List String) :
    RegExpSearch t l = l.find? (fun c => containsName t c) := by
  unfold RegExpSearch
  cases h : l.find? (fun c => containsName t c) with
  | some c => rfl
  | none =>
      have hnil : l.filter (fun c => containsName t c) = [] := by
        rw [List.filter_eq_nil_iff]
        intro a ha
        exact (List.find?_eq_none.mp h) a ha
      rw [hnil]

/-- C4: Worker.RegExpSearch returns the first candidate, in iteration order,
whose text contains the reported name as a verbatim substring, and `none`
when no candidate contains it; in particular
`RegExpSearch "foo" ["foo_bar", "baz"] = some "foo_bar"` and
`RegExpSearch "zzz" ["foo_bar", "baz"] = none`. Determinism is inherent:
`RegExpSearch` is a pure function of its arguments. -/
theorem RegExpSearch_resolves_first_containment :
    (∀ t l₁ c l₂, (∀ x ∈ l₁, containsName t x = false) →
      containsName t c = true →
      RegExpSearch t (l₁ ++ c :: l₂) = some c) ∧
    (∀ t l, (∀ x ∈ l, containsName t x = false) →
      RegExpSearch t l = none) ∧
    RegExpSearch "foo" ["foo_bar", "baz"] = some "foo_bar" ∧
    RegExpSearch "zzz" ["foo_bar", "baz"] = none := by
  refine ⟨?_, ?_, by decide, by decide⟩
  · intro t l₁ c l₂ hl₁ hc
    rw [RegExpSearch_eq_find, List.find?_append]
    have h1 : l₁.find? (fun x => containsName t x) = none := by
      rw [List.find?_eq_none]
      intro x hx
      simp [hl₁ x hx]
    rw [h1]
    simp [List.find?_cons, hc]
  · intro t l hl
    rw [RegExpSearch_eq_find, List.find?_eq_none]
    intro x hx
    simp [hl x hx]

/-- C4 witness: the general clauses of
`RegExpSearch_resolves_first_containment` applied at the concrete inputs
`("foo", ["foo_bar", "baz"])` (first-containment clause, with the empty
non-matching prefix) and `("zzz", ["foo_bar", "baz"])` (no-match clause). -/
theorem RegExpSearch_resolves_first_containment_witness :
    RegExpSearch "zzz" ["foo_bar", "baz"] = none ∧
    RegExpSearch "foo" ([] ++ "foo_bar" :: ["baz"]) = some "foo_bar" :=
  ⟨RegExpSearch_resolves_first_containment.2.1 "zzz" ["foo_bar", "baz"]
      (by decide),
    RegExpSearch_resolves_first_containment.1 "foo" [] "foo_bar" ["baz"]
      (by simp) (by decide)⟩

/-- C6: supporting evidence. With profiled usages
`{"a": 0.1, "b": 0.9}` (Python insertion order `["a", "b"]`) and feature
keys `["x_a_x", "x_b_x"]`, the fallback loop of
Worker.getMostInfluentialState resolves `"a"` first and returns `"x_a_x"`,
because line 182 discards the result of `sorted(...)`; under the claimed
descending-usage order `["b", "a"]` it would return `"x_b_x"` instead. -/
theorem fallbackSearch_uses_insertion_order :
    fallbackSearch ["a", "b"] ["x_a_x", "x_b_x"] = some "x_a_x" ∧
    fallbackSearch ["b", "a"] ["x_a_x", "x_b_x"] = some "x_b_x" ∧
    (some "x_a_x" : Option String) ≠ some "x_b_x" := by
  refine ⟨?_, ?_, by decide⟩
  · simp only [fallbackSearch, RegExpSearch]
    decide
  · simp only [fallbackSearch, RegExpSearch]
    decide

/-! ### RewardAttributor (Worker.calcEachReward, src/DPPO.py lines 230-347)

The reward computation proper (lines 275-347) is embedded here at the level
of the spec's `attribute` contract: the old and new usage snapshots are
given as maps from clang-style function names to `Option` usage fractions
(`none` is the explicit "unknown / not profiled" value produced by
lines 255-257 and 267-269; the perf-to-clang name-mapping phase that
produces them, lines 247-269, is the `RegExpSearch` component modelled
above). Python raising `ZeroDivisionError` on division by zero is modelled
by returning `Except.error`; rational arithmetic stands in for IEEE
floats. -/

/-- Errors a reward computation can surface. `zeroDivisionError` is
Python's exception on division by zero. `degenerateMetric` is the
`DegenerateMetric` error demanded by the spec's error-handling design; no
code in src/DPPO.py ever constructs it — it exists here only so that
statements about it can be written down. -/
inductive RewardError where
  | zeroDivisionError
  | degenerateMetric
deriving DecidableEq

/-- Line 286: `SigmaRatio = abs((abs_delta_total_cycles - sigma_total_cycles)
/ (2*sigma_total_cycles))`, with `abs_delta_total_cycles =
|old_total_cycles - new_total_cycles|` (lines 279-280). -/
def sigmaRatioOf (old_total new_total sigma : ℚ) : ℚ :=
  |((|old_total - new_total| - sigma) / (2 * sigma))|

/-- One iteration of the reward loop, lines 292-344, for a single function:
given its old and new usage (`none` = not profiled) and the current value of
the loop-carried variable `delta_total_cycles`, return the pair (reward,
value of `delta_total_cycles` after this iteration) or the Python exception
the iteration raises. Alpha starts at 2 and Beta is 2 (lines 299-300);
`2 * 2` is Alpha after `Alpha *= Beta` (lines 313, 320), `(2 * 2) / 2` is
Alpha after the corrective `Alpha /= Beta` (lines 331, 334), and
`2 * (2 * (1 / UPR))` is line 328. The sign correction (lines 330-335)
writes back into `delta_total_cycles`, which is why the updated delta is
returned. Division by a zero denominator (lines 336, 341) is the error
case. -/
def rewardOne (old_total new_total SigmaRatio UPR : ℚ)
    (old_usage new_usage : Option ℚ) (delta : ℚ) :
    Except RewardError (ℚ × ℚ) :=
  match old_usage, new_usage with
  | none, none =>
      if old_total = 0 then Except.error RewardError.zeroDivisionError
      else Except.ok (2 * SigmaRatio * (delta / old_total), delta)
  | none, some _ =>
      if 0 < delta then
        if old_total = 0 then Except.error RewardError.zeroDivisionError
        else Except.ok (((2 * 2) / 2) * SigmaRatio * (-delta / old_total),
          -delta)
      else
        if old_total = 0 then Except.error RewardError.zeroDivisionError
        else Except.ok ((2 * 2) * SigmaRatio * (delta / old_total), delta)
  | some _, none =>
      if delta < 0 then
        if old_total = 0 then Except.error RewardError.zeroDivisionError
        else Except.ok (((2 * 2) / 2) * SigmaRatio * (-delta / old_total),
          -delta)
      else
        if old_total = 0 then Except.error RewardError.zeroDivisionError
        else Except.ok ((2 * 2) * SigmaRatio * (delta / old_total), delta)
  | some ou, some nu =>
      if old_total * ou = 0 then Except.error RewardError.zeroDivisionError
      else Except.ok ((2 * (2 * (1 / UPR))) * SigmaRatio *
        ((old_total * ou - new_total * nu) / (old_total * ou)), delta)

/-- The `for FunctionName in AllFunctions` loop of lines 292-344, threading
the loop-carried `delta_total_cycles` through the iterations and collecting
the per-function rewards in order. -/
def rewardLoop (old_total new_total SigmaRatio UPR : ℚ)
    (oldD newD : String → Option ℚ) :
    List String → ℚ → Except RewardError (List (String × ℚ))
  | [], _ => Except.ok []
  | f :: fs, delta =>
      match rewardOne old_total new_total SigmaRatio UPR (oldD f) (newD f)
          delta with
      | Except.error e => Except.error e
      | Except.ok (r, delta2) =>
          match rewardLoop old_total new_total SigmaRatio UPR oldD newD fs
              delta2 with
          | Except.error e => Except.error e
          | Except.ok rest => Except.ok ((f, r) :: rest)

/-- Lines 287-291: `UsageProfiledRatio = UsageNumOverAll /
len(newAllUsageDict)`, the number of functions with a known new usage over
the number of functions. -/
def profiledRatioOf (AllFunctions : List String)
    (newD : String → Option ℚ) : ℚ :=
  ((AllFunctions.countP fun f => (newD f).isSome : ℕ) : ℚ) /
    ((AllFunctions.length : ℕ) : ℚ)

/-- Worker.calcEachReward, reward phase (lines 275-347). `AllFunctions` is
`list(Features.keys())` (line 248), `oldD`/`newD` are the old and new usage
snapshots keyed by those names, and `old_total`/`new_total`/`sigma` are
`oldCycles`, `TotalCyclesStat` and `MeanSigmaDict[target]['sigma']`.
Python evaluation order: `SigmaRatio` (line 286) divides by `2*sigma`
first, then `UsageProfiledRatio` (line 291) divides by the number of
functions (`0/0` when there are no functions), then the loop runs. -/
def calcEachReward (AllFunctions : List String)
    (oldD newD : String → Option ℚ) (old_total new_total sigma : ℚ) :
    Except RewardError (List (String × ℚ)) :=
  if sigma = 0 then Except.error RewardError.zeroDivisionError
  else
    if AllFunctions.length = 0 then
      Except.error RewardError.zeroDivisionError
    else
      rewardLoop old_total new_total (sigmaRatioOf old_total new_total sigma)
        (profiledRatioOf AllFunctions newD)
        oldD newD AllFunctions (old_total - new_total)

/-! ### Theorems about RewardAttributor -/

theorem rewardOne_known {ot nt SR UPR ou nu delta r d2 : ℚ}
    (h : rewardOne ot nt SR UPR (some ou) (some nu) delta =
      Except.ok (r, d2)) :
    r = (2 * (2 * (1 / UPR))) * SR * ((ot * ou - nt * nu) / (ot * ou)) := by
  simp only [rewardOne] at h
  split at h
  · cases h
  · simp only [Except.ok.injEq, Prod.mk.injEq] at h
    exact h.1.symm

theorem rewardLoop_ok_known (ot nt SR UPR : ℚ)
    (oldD newD : String → Option ℚ) :
    ∀ (fs : List String) (delta : ℚ) (l : List (String × ℚ)),
      rewardLoop ot nt SR UPR oldD newD fs delta = Except.ok l →
      ∀ (f : String) (r ou nu : ℚ), (f, r) ∈ l →
        oldD f = some ou → newD f = some nu →
        r = (2 * (2 * (1 / UPR))) * SR *
          ((ot * ou - nt * nu) / (ot * ou)) := by
  intro fs
  induction fs with
  | nil =>
      intro delta l h f r ou nu hmem ho hn
      simp only [rewardLoop] at h
      cases h
      cases hmem
  | cons g fs ih =>
      intro delta l h f r ou nu hmem ho hn
      simp only [rewardLoop] at h
      cases h1 : rewardOne ot nt SR UPR (oldD g) (newD g) delta with
      | error e => rw [h1] at h; cases h
      | ok p =>
          obtain ⟨r0, d2⟩ := p
          rw [h1] at h
          dsimp only at h
          cases h2 : rewardLoop ot nt SR UPR oldD newD fs d2 with
          | error e => rw [h2] at h; cases h
          | ok rest =>
              rw [h2] at h
              simp only [Except.ok.injEq] at h
              subst h
              cases hmem with
              | head =>
                  rw [ho, hn] at h1
                  exact rewardOne_known h1
              | tail _ hmem2 =>
                  exact ih d2 rest h2 f r ou nu hmem2 ho hn

theorem rewardLoop_all_unknown (ot nt SR UPR : ℚ)
    (oldD newD : String → Option ℚ) (hot : ot ≠ 0) :
    ∀ (fs : List String) (delta : ℚ),
      (∀ f ∈ fs, oldD f = none) → (∀ f ∈ fs, newD f = none) →
      rewardLoop ot nt SR UPR oldD newD fs delta =
        Except.ok (fs.map fun f => (f, 2 * SR * (delta / ot))) := by
  intro fs
  induction fs with
  | nil => intro delta ho hn; simp [rewardLoop]
  | cons g fs ih =>
      intro delta ho hn
      have hog : oldD g = none := ho g (by simp)
      have hng : newD g = none := hn g (by simp)
      simp only [rewardLoop, hog, hng, rewardOne, if_neg hot]
      rw [ih delta (fun f hf => ho f (by simp [hf]))
        (fun f hf => hn f (by simp [hf]))]
      simp

/-- C1 counterexample: calling `calcEachReward` with `sigma = 0` (and one
sub-unit whose usage is known on both sides) raises Python's
`ZeroDivisionError` at line 286 — an ordinary uncaught exception — and not
the `DegenerateMetric` error the claim demands (no code in src/DPPO.py
constructs any such error). -/
theorem calcEachReward_sigma_zero_not_degenerate :
    calcEachReward ["f0"] (fun _ => some (2/5)) (fun _ => some (2/5))
        1000 900 0 = Except.error RewardError.zeroDivisionError ∧
      (Except.error RewardError.zeroDivisionError :
          Except RewardError (List (String × ℚ))) ≠
        Except.error RewardError.degenerateMetric := by
  constructor
  · simp [calcEachReward]
  · simp

theorem rewardOne_error_zdv {ot nt SR UPR : ℚ} {ou nu : Option ℚ}
    {delta : ℚ} {e : RewardError}
    (h : rewardOne ot nt SR UPR ou nu delta = Except.error e) :
    e = RewardError.zeroDivisionError := by
  unfold rewardOne at h
  cases ou <;> cases nu <;> dsimp only at h <;>
    (repeat' split at h) <;>
    first
      | exact (Except.noConfusion h)
      | (injection h with h1; exact h1.symm)

theorem rewardLoop_error_zdv (ot nt SR UPR : ℚ)
    (oldD newD : String → Option ℚ) :
    ∀ (fs : List String) (delta : ℚ) (e : RewardError),
      rewardLoop ot nt SR UPR oldD newD fs delta = Except.error e →
      e = RewardError.zeroDivisionError := by
  intro fs
  induction fs with
  | nil =>
      intro delta e h
      simp only [rewardLoop] at h
      cases h
  | cons g fs ih =>
      intro delta e h
      simp only [rewardLoop] at h
      cases h1 : rewardOne ot nt SR UPR (oldD g) (newD g) delta with
      | error e2 =>
          rw [h1] at h
          injection h with h3
          subst h3
          exact rewardOne_error_zdv h1
      | ok p =>
          obtain ⟨r0, d2⟩ := p
          rw [h1] at h
          dsimp only at h
          cases h2 : rewardLoop ot nt SR UPR oldD newD fs d2 with
          | error e2 =>
              rw [h2] at h
              injection h with h3
              subst h3
              exact ih d2 e2 h2
          | ok rest =>
              rw [h2] at h
              cases h

theorem rewardLoop_member_degenerate (ot nt SR UPR : ℚ)
    (oldD newD : String → Option ℚ) :
    ∀ (fs : List String) (f : String) (ou nu : ℚ), f ∈ fs →
      oldD f = some ou → newD f = some nu → ot * ou = 0 →
      ∀ delta : ℚ, ∃ e, rewardLoop ot nt SR UPR oldD newD fs delta =
        Except.error e := by
  intro fs
  induction fs with
  | nil =>
      intro f ou nu hmem
      cases hmem
  | cons g fs ih =>
      intro f ou nu hmem ho hn hz delta
      rcases List.mem_cons.mp hmem with hfg | hmem2
      · subst hfg
        refine ⟨RewardError.zeroDivisionError, ?_⟩
        simp only [rewardLoop, ho, hn, rewardOne, if_pos hz]
      · cases h1 : rewardOne ot nt SR UPR (oldD g) (newD g) delta with
        | error e2 =>
            refine ⟨e2, ?_⟩
            simp only [rewardLoop]
            rw [h1]
        | ok p =>
            obtain ⟨r0, d2⟩ := p
            obtain ⟨e, he⟩ := ih f ou nu hmem2 ho hn hz d2
            refine ⟨e, ?_⟩
            simp only [rewardLoop]
            rw [h1]
            dsimp only
            rw [he]

/-- C1 as amended: when `sigma = 0`, and likewise when any sub-unit — at
any position of `AllFunctions` — has both usages known and
`oldTotalCycles * oldUsage[f] = 0`, Worker.calcEachReward raises
`ZeroDivisionError` (Python's division-by-zero exception, unhandled
anywhere in Worker.work, so it kills the worker thread) — not a
`DegenerateMetric` error. -/
theorem calcEachReward_division_by_zero_raises :
    (∀ (AllFunctions : List String) (oldD newD : String → Option ℚ)
        (ot nt sigma : ℚ), sigma = 0 →
      calcEachReward AllFunctions oldD newD ot nt sigma =
        Except.error RewardError.zeroDivisionError) ∧
    (∀ (AllFunctions : List String) (oldD newD : String → Option ℚ)
        (ot nt sigma ou nu : ℚ) (f : String), sigma ≠ 0 →
      f ∈ AllFunctions → oldD f = some ou → newD f = some nu →
      ot * ou = 0 →
      calcEachReward AllFunctions oldD newD ot nt sigma =
        Except.error RewardError.zeroDivisionError) := by
  constructor
  · intro AllFunctions oldD newD ot nt sigma hsig
    simp [calcEachReward, hsig]
  · intro AllFunctions oldD newD ot nt sigma ou nu f hsig hmem ho hn hzero
    simp only [calcEachReward, if_neg hsig]
    rw [if_neg (by
      intro hlen
      rw [List.length_eq_zero] at hlen
      subst hlen
      cases hmem)]
    obtain ⟨e, he⟩ := rewardLoop_member_degenerate ot nt
      (sigmaRatioOf ot nt sigma) (profiledRatioOf AllFunctions newD)
      oldD newD AllFunctions f ou nu hmem ho hn hzero (ot - nt)
    have hz2 := rewardLoop_error_zdv ot nt
      (sigmaRatioOf ot nt sigma) (profiledRatioOf AllFunctions newD)
      oldD newD AllFunctions (ot - nt) e he
    rw [he, hz2]

/-- C1 witness: the two clauses of `calcEachReward_division_by_zero_raises`
applied at concrete inputs — `sigma = 0`, and a degenerate sub-unit `g0`
sitting at the second (non-head) position of the function list, with known
usages and old function cycles `1000 * 0 = 0`. -/
theorem calcEachReward_division_by_zero_raises_witness :
    calcEachReward ["f1"] (fun _ => some (2/5)) (fun _ => some (2/5))
        1000 900 0 = Except.error RewardError.zeroDivisionError ∧
    calcEachReward ["h0", "g0"]
        (fun x => if x = "g0" then some 0 else some (1/2))
        (fun _ => some (2/5)) 1000 900 50 =
      Except.error RewardError.zeroDivisionError :=
  ⟨calcEachReward_division_by_zero_raises.1 ["f1"] (fun _ => some (2/5))
      (fun _ => some (2/5)) 1000 900 0 rfl,
    calcEachReward_division_by_zero_raises.2 ["h0", "g0"]
      (fun x => if x = "g0" then some 0 else some (1/2))
      (fun _ => some (2/5)) 1000 900 50 0 (2/5) "g0" (by norm_num)
      (by simp) (by simp) rfl (by norm_num)⟩

/-- C2: supporting evidence for the delta-leak bug. With two sub-units
where `f` is flagged "slowdown" (old usage unknown, new usage known) and
`g` is pure aggregate (both unknown), `oldTotalCycles = 1000`,
`newTotalCycles = 900`, `sigma = 50`: the sign correction at sub-unit `f`
writes `-delta` back into the loop variable `delta_total_cycles`
(line 332), so `g`'s aggregate reward also uses the flipped delta and
equals `-1/10`; the claim's value for `g` (original
`delta = oldTotalCycles - newTotalCycles = 100`) would be
`2 * sigmaRatio * (100/1000) = +1/10`. -/
theorem calcEachReward_sign_flip_leaks :
    calcEachReward ["f", "g"] (fun _ => none)
        (fun f => if f = "f" then some (1/2) else none) 1000 900 50 =
      Except.ok [("f", -(1/10)), ("g", -(1/10))] ∧
    (-(1/10) : ℚ) ≠
      2 * sigmaRatioOf 1000 900 50 * ((1000 - 900) / 1000) := by
  constructor
  · simp only [calcEachReward, rewardLoop, rewardOne, sigmaRatioOf,
      profiledRatioOf]
    norm_num [abs_of_nonneg]
    simp
  · norm_num [sigmaRatioOf, abs_of_nonneg]

/-- C3: for every sub-unit with both usages known, the reward is
`Alpha * sigmaRatio * ((oldTotal*oldUsage - newTotal*newUsage) /
(oldTotal*oldUsage))` with `Alpha = 2 * 2 * (1/profiledRatio)` and
`sigmaRatio = ||delta| - sigma| / (2*sigma)`; and on the spec scenario
(oldTotal 1000, newTotal 900, sigma 50, one sub-unit with old and new
usage 2/5) the reward is exactly 1/5 = 0.2. -/
theorem calcEachReward_perFunction_formula :
    (∀ (AllFunctions : List String) (oldD newD : String → Option ℚ)
        (ot nt sigma : ℚ) (l : List (String × ℚ)) (f : String)
        (r ou nu : ℚ),
      calcEachReward AllFunctions oldD newD ot nt sigma = Except.ok l →
      (f, r) ∈ l → oldD f = some ou → newD f = some nu → 0 < sigma →
      r = 2 * 2 * (1 / profiledRatioOf AllFunctions newD) *
        (|(|ot - nt| - sigma)| / (2 * sigma)) *
        ((ot * ou - nt * nu) / (ot * ou))) ∧
    calcEachReward ["f0"] (fun _ => some (2/5)) (fun _ => some (2/5))
      1000 900 50 = Except.ok [("f0", 1/5)] := by
  constructor
  · intro AllFunctions oldD newD ot nt sigma l f r ou nu h hmem ho hn hsig
    simp only [calcEachReward, if_neg (ne_of_gt hsig)] at h
    by_cases hlen : AllFunctions.length = 0
    · rw [if_pos hlen] at h; cases h
    · rw [if_neg hlen] at h
      have hr := rewardLoop_ok_known ot nt
        (sigmaRatioOf ot nt sigma) (profiledRatioOf AllFunctions newD)
        oldD newD AllFunctions (ot - nt) l h f r ou nu hmem ho hn
      rw [hr]
      have hSR : sigmaRatioOf ot nt sigma =
          |(|ot - nt| - sigma)| / (2 * sigma) := by
        unfold sigmaRatioOf
        rw [abs_div, abs_of_pos (by linarith : (0:ℚ) < 2 * sigma)]
      rw [hSR]
      ring
  · simp only [calcEachReward, rewardLoop, rewardOne, sigmaRatioOf,
      profiledRatioOf]
    norm_num [abs_of_nonneg]

/-- C3 witness: the general clause of `calcEachReward_perFunction_formula`
applied at the spec scenario, using the scenario clause of the same theorem
to discharge its own hypothesis; the reward 1/5 matches the claimed
formula. -/
theorem calcEachReward_perFunction_formula_witness :
    (1/5 : ℚ) = 2 * 2 *
        (1 / profiledRatioOf ["f0"] (fun _ => some (2/5))) *
        (|(|(1000:ℚ) - 900| - 50)| / (2 * 50)) *
        ((1000 * (2/5) - 900 * (2/5)) / (1000 * (2/5))) :=
  calcEachReward_perFunction_formula.1 ["f0"] (fun _ => some (2/5))
    (fun _ => some (2/5)) 1000 900 50 [("f0", 1/5)] "f0" (1/5) (2/5) (2/5)
    calcEachReward_perFunction_formula.2 (by simp) rfl rfl (by norm_num)

/-- C5: when every sub-unit's usage is unknown in both snapshots (and
`sigma ≠ 0`, `oldTotalCycles ≠ 0`), every sub-unit receives the identical
aggregate reward `2 * sigmaRatio * (delta / oldTotalCycles)` with
`delta = oldTotalCycles - newTotalCycles`. -/
theorem calcEachReward_all_unknown_uniform :
    ∀ (AllFunctions : List String) (oldD newD : String → Option ℚ)
      (ot nt sigma : ℚ), sigma ≠ 0 → ot ≠ 0 → AllFunctions ≠ [] →
      (∀ f ∈ AllFunctions, oldD f = none) →
      (∀ f ∈ AllFunctions, newD f = none) →
      calcEachReward AllFunctions oldD newD ot nt sigma =
        Except.ok (AllFunctions.map fun f =>
          (f, 2 * sigmaRatioOf ot nt sigma * ((ot - nt) / ot))) := by
  intro AllFunctions oldD newD ot nt sigma hsig hot hne ho hn
  simp only [calcEachReward, if_neg hsig]
  rw [if_neg (by simpa [List.length_eq_zero] using hne)]
  exact rewardLoop_all_unknown ot nt (sigmaRatioOf ot nt sigma)
    (profiledRatioOf AllFunctions newD) oldD newD hot AllFunctions
    (ot - nt) ho hn

/-- C5 witness: `calcEachReward_all_unknown_uniform` applied to two
sub-units with all usages unknown, oldTotal 1000, newTotal 900, sigma 50;
both rewards are the same aggregate value. -/
theorem calcEachReward_all_unknown_uniform_witness :
    calcEachReward ["a", "b"] (fun _ => none) (fun _ => none)
      1000 900 50 = Except.ok (["a", "b"].map fun f =>
        (f, 2 * sigmaRatioOf 1000 900 50 * ((1000 - 900) / 1000))) :=
  calcEachReward_all_unknown_uniform ["a", "b"] (fun _ => none)
    (fun _ => none) 1000 900 50 (by norm_num) (by norm_num) (by simp)
    (fun _ _ => rfl) (fun _ _ => rfl)

/-! ### PPO.choose_action (src/DPPO.py lines 100-130) and the episode loop
use of PassHistory (Worker.work, lines 453-563) -/

/-- What PPO.choose_action returns: either a pass index (line 128) or the
literal string `'Error'` (line 130) when every index is already in
`PassHistory`. -/
inductive ActionResult where
  | pass (idx : ℕ)
  | err (msg : String)
deriving DecidableEq

/-- PPO.choose_action, lines 100-130. The sampled network output `a.tolist()`
is the list `aList` of per-action probabilities; `PassHistory` is the set of
already-applied pass indices (a Python dict used as a set). Lines 114-119
build `probList = [[idx, prob], ...]` (here `List.enum`); line 121 sorts it
by probability in descending order (Python's stable sort with
`reverse=True`; here stable insertion sort with relation
`y.prob ≤ x.prob`); lines 123-128 return the first index not yet in
`PassHistory` after recording it; line 130 returns `'Error'`. -/
def choose_action (aList : List ℚ) (PassHistory : List ℕ) :
    ActionResult × List ℕ :=
  let probList := aList.enum
  let sortedList := List.insertionSort (fun x y => y.2 ≤ x.2) probList
  match sortedList.find? (fun actionProb =>
      !decide (actionProb.1 ∈ PassHistory)) with
  | some actionProb => (ActionResult.pass actionProb.1,
      actionProb.1 :: PassHistory)
  | none => (ActionResult.err "Error", PassHistory)

/-- The PassHistory thread of Worker.work's inner episode loop
(lines 467-552): each step calls `choose_action` with the current
`PassHistory` (line 490); a returned pass is recorded (line 127). The
episode starts from the empty history (`PassHistory = {}`, line 466, also
reset on episode end at line 549). `actions` accumulates the pass indices
chosen so far. -/
def runEpisodeAux : List (List ℚ) → List ℕ → List ℕ → List ℕ × List ℕ
  | [], actions, hist => (actions, hist)
  | aList :: rest, actions, hist =>
      match choose_action aList hist with
      | (ActionResult.pass i, h2) => runEpisodeAux rest (actions ++ [i]) h2
      | (ActionResult.err _, h2) => runEpisodeAux rest actions h2

/-- One episode's sequence of chosen passes, starting from the cleared
PassHistory of line 466. -/
def runEpisode (probVecs : List (List ℚ)) : List ℕ × List ℕ :=
  runEpisodeAux probVecs [] []

theorem choose_action_pass {aList : List ℚ} {hist h2 : List ℕ} {i : ℕ}
    (h : choose_action aList hist = (ActionResult.pass i, h2)) :
    i ∉ hist ∧ h2 = i :: hist := by
  unfold choose_action at h
  dsimp only at h
  cases hfind : (List.insertionSort (fun x y => y.2 ≤ x.2)
      aList.enum).find? (fun ap => !decide (ap.1 ∈ hist)) with
  | none =>
      rw [hfind] at h
      cases h
  | some ap =>
      rw [hfind] at h
      have hp := List.find?_some hfind
      simp only [Bool.not_eq_true', decide_eq_false_iff_not] at hp
      simp only [Prod.mk.injEq, ActionResult.pass.injEq] at h
      obtain ⟨h1, hh2⟩ := h
      subst h1
      exact ⟨hp, hh2.symm⟩

theorem choose_action_err {aList : List ℚ} {hist h2 : List ℕ} {m : String}
    (h : choose_action aList hist = (ActionResult.err m, h2)) :
    h2 = hist := by
  unfold choose_action at h
  dsimp only at h
  cases hfind : (List.insertionSort (fun x y => y.2 ≤ x.2)
      aList.enum).find? (fun ap => !decide (ap.1 ∈ hist)) with
  | none =>
      rw [hfind] at h
      simp only [Prod.mk.injEq] at h
      exact h.2.symm
  | some ap =>
      rw [hfind] at h
      cases h

theorem runEpisodeAux_nodup :
    ∀ (pvs : List (List ℚ)) (actions hist : List ℕ),
      actions.Nodup → (∀ a ∈ actions, a ∈ hist) →
      (runEpisodeAux pvs actions hist).1.Nodup := by
  intro pvs
  induction pvs with
  | nil => intro actions hist hnd _; exact hnd
  | cons aList rest ih =>
      intro actions hist hnd hsub
      simp only [runEpisodeAux]
      cases hch : choose_action aList hist with
      | mk res h2 =>
          cases res with
          | pass i =>
              obtain ⟨hnotin, hh2⟩ := choose_action_pass hch
              subst hh2
              refine ih (actions ++ [i]) (i :: hist) ?_ ?_
              · simp only [List.nodup_append, List.nodup_cons,
                  List.not_mem_nil, not_false_iff, List.nodup_nil,
                  true_and, and_true]
                constructor
                · exact hnd
                · intro a ha hai
                  simp only [List.mem_singleton] at hai
                  subst hai
                  exact hnotin (hsub a ha)
              · intro a ha
                rcases List.mem_append.mp ha with hl | hr
                · exact List.mem_cons_of_mem _ (hsub a hl)
                · simp only [List.mem_singleton] at hr
                  subst hr
                  exact List.mem_cons_self _ _
          | err m =>
              have hh2 := choose_action_err hch
              rw [hh2]
              exact ih actions hist hnd hsub

/-- C8: PPO.choose_action never returns an action already present in
PassHistory (the chosen index is recorded, and any recorded index is
excluded from later choices), so the sequence of passes chosen within one
episode — which starts from the cleared PassHistory — contains no
duplicates, whatever the policy's probability outputs are. -/
theorem choose_action_no_repeat_in_episode :
    (∀ (aList : List ℚ) (hist h2 : List ℕ) (i : ℕ),
      choose_action aList hist = (ActionResult.pass i, h2) →
      i ∉ hist ∧ h2 = i :: hist) ∧
    (∀ probVecs : List (List ℚ), (runEpisode probVecs).1.Nodup) := by
  constructor
  · intro aList hist h2 i h
    exact choose_action_pass h
  · intro probVecs
    exact runEpisodeAux_nodup probVecs [] [] List.nodup_nil
      (by intro a ha; cases ha)

/-- C8 witness: `choose_action_no_repeat_in_episode` applied to a concrete
two-step episode. With probabilities `[1, 2]` and empty history the sampled
action is index 1 (highest probability); with the same probabilities and
history `[1]` it is index 0. -/
theorem choose_action_no_repeat_in_episode_witness :
    ((1:ℕ) ∉ ([] : List ℕ) ∧ [1] = [1]) ∧
      (0:ℕ) ∉ [1] ∧ [0, 1] = [0, 1] ∧
      (runEpisode [[1, 2], [1, 2]]).1.Nodup := by
  refine ⟨choose_action_no_repeat_in_episode.1 [1, 2] [] [1] 1 ?_,
    ?_, ?_, choose_action_no_repeat_in_episode.2 [[1, 2], [1, 2]]⟩
  · show choose_action [1, 2] [] = (ActionResult.pass 1, [1])
    simp only [choose_action, List.enum, List.insertionSort,
      List.orderedInsert]
    norm_num
  · exact (choose_action_no_repeat_in_episode.1 [1, 2] [1] [0, 1] 0 (by
      simp only [choose_action, List.enum, List.insertionSort,
        List.orderedInsert]
      norm_num)).1
  · rfl

/-- C10: when `PassHistory` already contains every index of the action
space (every `i < aList.length`, with `aList.length = 34` in this program),
the loop over the sorted probability list finds no unused pass, so
PPO.choose_action falls through to line 130 and returns the string
`'Error'` instead of an action identifier, leaving PassHistory unchanged.
(Worker.work, line 490, passes this value straight to `env.step` without
checking for it.) -/
theorem choose_action_exhausted :
    ∀ (aList : List ℚ) (hist : List ℕ), aList.length = 34 →
      (∀ i, i < 34 → i ∈ hist) →
      choose_action aList hist = (ActionResult.err "Error", hist) := by
  intro aList hist hlen hmem
  unfold choose_action
  dsimp only
  have hnone : (List.insertionSort (fun x y => y.2 ≤ x.2)
      aList.enum).find? (fun ap => !decide (ap.1 ∈ hist)) = none := by
    rw [List.find?_eq_none]
    intro x hx
    obtain ⟨i, q⟩ := x
    have hx2 : (i, q) ∈ aList.enum :=
      (List.perm_insertionSort (fun x y : ℕ × ℚ => y.2 ≤ x.2)
        aList.enum).subset hx
    have hx3 : (i, q) ∈ aList.enumFrom 0 := by
      simpa [List.enum] using hx2
    have hi : i < 34 := by
      have := (List.mem_enumFrom hx3).2.1
      simpa [hlen] using this
    simp [hmem i hi]
  rw [hnone]

/-- C10 witness: `choose_action_exhausted` applied to a 34-entry
probability vector and the full history `[0, ..., 33]`. -/
theorem choose_action_exhausted_witness :
    choose_action (List.replicate 34 (0:ℚ)) (List.range 34) =
      (ActionResult.err "Error", List.range 34) :=
  choose_action_exhausted (List.replicate 34 0) (List.range 34)
    (by simp) (by decide)

/-! ### Batch counter and the collect/update gates (Worker.work,
src/DPPO.py lines 453-563, and the module initialization lines 573-577) -/

/-- Constant `MIN_BATCH_SIZE = 24`, line 31. -/
def MIN_BATCH_SIZE : ℕ := 24

/-- The shared coordination state a single worker's loop manipulates after
a successful step: `GLOBAL_UPDATE_COUNTER` (line 517) and the two
`threading.Event` gates, `Events['collect']` and `Events['update']`. -/
structure LoopState where
  counter : ℕ
  collectEvent : Bool
  updateEvent : Bool
deriving DecidableEq

/-- Initial gate state, lines 573-577: `Events['update'].clear()` then
`Events['collect'].set()`, counter 0 (line 588). -/
def initLoopState : LoopState := ⟨0, true, false⟩

/-- The post-success tail of one iteration of Worker.work's inner loop,
lines 516-542, for a step that observed `nSubUnits` sub-units
(`len(nextStates.keys())`): add `nSubUnits` to the counter (line 517); the
`if True:` block (line 520) always runs, and if the counter has reached
`MIN_BATCH_SIZE` it clears the collect gate and sets the update gate
(lines 540-542). The queue flushing in between does not touch this
state. -/
def stepOnce (nSubUnits : ℕ) (s : LoopState) : LoopState :=
  let c := s.counter + nSubUnits
  if MIN_BATCH_SIZE ≤ c then ⟨c, false, true⟩
  else ⟨c, s.collectEvent, s.updateEvent⟩

/-- A sequence of successful steps by one worker (no interleaved updater
activity), each observing the given number of sub-units. -/
def runSteps (obs : List ℕ) (s : LoopState) : LoopState :=
  obs.foldl (fun st n => stepOnce n st) s

theorem runSteps_append (l1 l2 : List ℕ) (s : LoopState) :
    runSteps (l1 ++ l2) s = runSteps l2 (runSteps l1 s) :=
  List.foldl_append _ _ _ _

theorem runSteps_single_subunit (k : ℕ) :
    runSteps (List.replicate k 1) initLoopState =
      if MIN_BATCH_SIZE ≤ k then ⟨k, false, true⟩
      else ⟨k, true, false⟩ := by
  induction k with
  | zero =>
      rw [if_neg (by norm_num [MIN_BATCH_SIZE])]
      rfl
  | succ k ih =>
      rw [List.replicate_succ', runSteps_append, ih]
      by_cases hk : MIN_BATCH_SIZE ≤ k
      · rw [if_pos hk, if_pos (Nat.le_succ_of_le hk)]
        simp only [runSteps, List.foldl_cons, List.foldl_nil, stepOnce]
        rw [ite_self]
      · rw [if_neg hk]
        simp only [runSteps, List.foldl_cons, List.foldl_nil, stepOnce]

/-- C9: after each successful step the worker adds the number of observed
sub-units to the batch counter, and whenever the counter has reached
`MIN_BATCH_SIZE` it clears the collect gate and sets the update gate; with
`MIN_BATCH_SIZE = 24`, one worker and exactly one sub-unit per step, the
update gate after `k` successful steps is set exactly when `24 ≤ k` — so
it is first set at step 24 and never earlier. -/
theorem batch_counter_update_gate :
    (∀ (n : ℕ) (s : LoopState), (stepOnce n s).counter = s.counter + n) ∧
    (∀ (n : ℕ) (s : LoopState), MIN_BATCH_SIZE ≤ s.counter + n →
      stepOnce n s = ⟨s.counter + n, false, true⟩) ∧
    (∀ k : ℕ, (runSteps (List.replicate k 1) initLoopState).counter = k ∧
      ((runSteps (List.replicate k 1) initLoopState).updateEvent =
        decide (24 ≤ k)) ∧
      ((runSteps (List.replicate k 1) initLoopState).collectEvent =
        !decide (24 ≤ k))) := by
  refine ⟨?_, ?_, ?_⟩
  · intro n s
    unfold stepOnce
    dsimp only
    split <;> rfl
  · intro n s h
    unfold stepOnce
    dsimp only
    rw [if_pos h]
  · intro k
    rw [runSteps_single_subunit k]
    by_cases hk : MIN_BATCH_SIZE ≤ k
    · rw [if_pos hk]
      have : 24 ≤ k := hk
      simp [this]
    · rw [if_neg hk]
      have : ¬ 24 ≤ k := hk
      simp [this]

/-- C9 witness: the threshold clause of `batch_counter_update_gate`
applied at the concrete crossing step (counter 23, one more sub-unit
observed). -/
theorem batch_counter_update_gate_witness :
    stepOnce 1 ⟨23, true, false⟩ = ⟨23 + 1, false, true⟩ :=
  batch_counter_update_gate.2.1 1 ⟨23, true, false⟩ (by norm_num
    [MIN_BATCH_SIZE])

/-! ### Configuration check (Worker.getCpuMeanSigmaInfo, src/DPPO.py
lines 413-438, called from Worker.work at line 464) -/

/-- Outcome of the metric-table lookup. `sysExit code` models
`sys.exit(code)` (a `SystemExit` exception; raised inside a thread it
terminates only that thread). `nameError` models the `NameError` raised by
line 424, `sus.exit(1)`, where `sus` is an undefined name (a typo for
`sys`). `ok` carries the parsed `{target: (mean, sigma)}` table. -/
inductive ConfigOutcome where
  | sysExit (code : ℕ)
  | nameError
  | ok (table : List (String × ℤ × ℤ))
deriving DecidableEq

/-- Worker.getCpuMeanSigmaInfo, lines 413-438. `env` is
`os.getenv('LLVM_THESIS_RandomHome', 'Error')` (so an unset variable
yields the sentinel string `"Error"`, line 417); `fileExists` is
`os.path.exists` (line 422); the parsed contents of the metric file are
passed in as `table` (file reading and line parsing, lines 426-437, are
I/O outside this embedding). Line 418-420: sentinel means print the
diagnostic to stderr and `sys.exit(1)`. Line 422-424: missing file means
print the diagnostic and evaluate `sus.exit(1)`, i.e. raise `NameError`. -/
def getCpuMeanSigmaInfo (env : Option String) (fileExists : String → Bool)
    (table : List (String × ℤ × ℤ)) : ConfigOutcome :=
  let path := env.getD "Error"
  if path = "Error" then ConfigOutcome.sysExit 1
  else
    let fullPath := path ++
      "/LLVMTestSuiteScript/GraphGen/output/newMeasurableStdBenchmarkMeanAndSigma"
    if fileExists fullPath = false then ConfigOutcome.nameError
    else ConfigOutcome.ok table

/-- The operations Worker.work performs, in order, before entering its
inner episode loop (lines 455-467): bind the shared locks and gates
(lines 456-460), reset the environment (line 461), initialize the buffers
(lines 462-463), call getCpuMeanSigmaInfo (line 464), and initialize
FirstEpi and PassHistory (lines 465-466). Worker.work is the target of
each worker thread (lines 595-597), so everything in this list runs inside
an already-started worker thread. -/
inductive WorkerOp where
  | bindSharedState
  | envReset
  | initBuffers
  | getCpuMeanSigma
  | initPassHistory
deriving DecidableEq

/-- The prologue of Worker.work, lines 455-466, in program order. -/
def workPrologue : List WorkerOp :=
  [WorkerOp.bindSharedState, WorkerOp.envReset, WorkerOp.initBuffers,
    WorkerOp.getCpuMeanSigma, WorkerOp.initPassHistory]

/-- C7 counterexample: with the environment variable set (to `/home/x`)
but the metric file missing, getCpuMeanSigmaInfo raises `NameError`
(line 424 evaluates `sus.exit(1)` and `sus` is undefined) — an unhandled
exception inside the running worker thread — instead of the clean
diagnostic-and-exit the claim requires; and the metric check itself is an
operation of the Worker.work thread body, so it cannot happen before the
worker threads start. -/
theorem getCpuMeanSigmaInfo_missing_file_not_exit :
    getCpuMeanSigmaInfo (some "/home/x") (fun _ => false) [] =
        ConfigOutcome.nameError ∧
      (∀ code : ℕ, ConfigOutcome.nameError ≠ ConfigOutcome.sysExit code) ∧
      WorkerOp.getCpuMeanSigma ∈ workPrologue := by
  refine ⟨by simp [getCpuMeanSigmaInfo], ?_, by decide⟩
  intro code
  simp

/-- C7 as amended: the metric-table check runs inside Worker.work, i.e.
inside an already-running worker thread. When the environment variable is
unset (or literally `"Error"`), the thread prints the diagnostic and
raises `SystemExit(1)` via `sys.exit`, terminating only that thread; when
the variable is set but the metric file is missing, the thread raises
`NameError` (the `sus.exit(1)` typo at line 424), an unhandled exception
inside the running thread — in neither case does the process terminate
before the worker threads start. -/
theorem getCpuMeanSigmaInfo_error_paths :
    (∀ (fe : String → Bool) (t : List (String × ℤ × ℤ)),
      getCpuMeanSigmaInfo none fe t = ConfigOutcome.sysExit 1) ∧
    (∀ (p : String) (fe : String → Bool) (t : List (String × ℤ × ℤ)),
      p ≠ "Error" →
      fe (p ++
        "/LLVMTestSuiteScript/GraphGen/output/newMeasurableStdBenchmarkMeanAndSigma")
        = false →
      getCpuMeanSigmaInfo (some p) fe t = ConfigOutcome.nameError) ∧
    WorkerOp.getCpuMeanSigma ∈ workPrologue := by
  refine ⟨?_, ?_, by decide⟩
  · intro fe t
    simp [getCpuMeanSigmaInfo]
  · intro p fe t hp hfe
    simp [getCpuMeanSigmaInfo, hp, hfe]

/-- C7 witness: the two clauses of `getCpuMeanSigmaInfo_error_paths`
applied at concrete inputs (variable unset; variable `/home/x` with the
file reported absent). -/
theorem getCpuMeanSigmaInfo_error_paths_witness :
    getCpuMeanSigmaInfo none (fun _ => true) [] =
        ConfigOutcome.sysExit 1 ∧
      getCpuMeanSigmaInfo (some "/home/x") (fun _ => false) [("a", 1, 2)] =
        ConfigOutcome.nameError :=
  ⟨getCpuMeanSigmaInfo_error_paths.1 (fun _ => true) [],
    getCpuMeanSigmaInfo_error_paths.2.1 "/home/x" (fun _ => false)
      [("a", 1, 2)] (by decide) rfl⟩

end DPPO
